import Mathlib

/-!
Shallow embedding of `packages/providers/src.ts/websocket-provider.ts`
(class `WebSocketProvider`) and proofs about its request-correlation,
readiness-gating and subscription-lifecycle logic.

Incoming and outgoing wire data is JSON; JavaScript field access,
truthiness and string coercion are modelled explicitly.  The mutable
fields of the provider (`_requests`, `_subIds`, `_subs`, `_wsReady`,
and the module-level counter `NextId`) become a `WsState` record that
every operation threads explicitly.  Invocations of request callbacks
and of subscription `processFunc`s are recorded as `Effect`s; a thrown
JavaScript exception is modelled as `Except.error`.
-/

namespace EthersWS

/-- Parsed JSON values, as produced by `JSON.parse`.  JavaScript's
`undefined` is not a JSON value; an absent object field is modelled by
`Option.none` at the access site. -/
inductive JsonValue where
  | null
  | bool (b : Bool)
  | num (n : Int)
  | str (s : String)
  | arr (elems : List JsonValue)
  | obj (fields : List (String × JsonValue))

/-- First-match association-list lookup, modelling JavaScript object
property read `o[k]` (`none` = the property is absent / `undefined`). -/
def alookup {κ α : Type} [DecidableEq κ] : List (κ × α) → κ → Option α
  | [], _ => none
  | (k, v) :: rest, key => if k = key then some v else alookup rest key

/-- Property write `o[k] = v`: overwrite in place, or append a new key. -/
def aset {κ α : Type} [DecidableEq κ] : List (κ × α) → κ → α → List (κ × α)
  | [], key, v => [(key, v)]
  | (k, w) :: rest, key, v =>
      if k = key then (k, v) :: rest else (k, w) :: aset rest key v

/-- Property removal `delete o[k]`. -/
def aerase {κ α : Type} [DecidableEq κ] : List (κ × α) → κ → List (κ × α)
  | [], _ => []
  | (k, w) :: rest, key =>
      if k = key then aerase rest key else (k, w) :: aerase rest key

/-- Read a field of a JavaScript value that is known not to be
`null`/`undefined` (reading a field of `null` throws; the callers below
handle that case before using this function).  Non-object primitives
have none of the fields this module reads, so they yield `undefined`. -/
def jsGetV (v : JsonValue) (key : String) : Option JsonValue :=
  match v with
  | .obj fields => alookup fields key
  | _ => none

/-- JavaScript truthiness of a possibly-absent value (`undefined`,
`null`, `false`, `0` and `""` are falsy). -/
def truthy : Option JsonValue → Bool
  | none => false
  | some .null => false
  | some (.bool b) => b
  | some (.num n) => n != 0
  | some (.str s) => s != ""
  | some (.arr _) => true
  | some (.obj _) => true

/-- The loose comparison `x != null`, true unless `x` is `null` or
`undefined` (source line 80: `result.id != null`). -/
def looseNonNull : Option JsonValue → Bool
  | none => false
  | some .null => false
  | some _ => true

/-- Whether the parsed top-level message is JSON `null` (field access on
it would then throw a `TypeError`). -/
def isNullV : JsonValue → Bool
  | .null => true
  | _ => false

mutual

/-- JavaScript `String(v)` coercion for a JSON value. -/
def jsToString : JsonValue → String
  | .null => "null"
  | .bool b => cond b "true" "false"
  | .num n => toString n
  | .str s => s
  | .arr xs => jsArrayElems xs
  | .obj _ => "[object Object]"

/-- `Array.prototype.toString`: elements joined by commas, with `null`
rendering as the empty string. -/
def jsArrayElems : List JsonValue → String
  | [] => ""
  | [JsonValue.null] => ""
  | [x] => jsToString x
  | JsonValue.null :: rest => "," ++ jsArrayElems rest
  | x :: rest => jsToString x ++ "," ++ jsArrayElems rest

end

/-- `String(v)` where `v` may be `undefined` (used for the object-key
coercion in `this._subs[result.params.subscription]`). -/
def jsToStringU : Option JsonValue → String
  | none => "undefined"
  | some v => jsToString v

/-- Minimal JSON string escaping for `JSON.stringify`. -/
def jsonEscape (s : String) : String :=
  String.join (s.data.map fun c =>
    if c = '"' then "\\\"" else if c = '\\' then "\\\\" else String.singleton c)

mutual

/-- `JSON.stringify`, with object keys in insertion order. -/
def jsonStringify : JsonValue → String
  | .null => "null"
  | .bool b => cond b "true" "false"
  | .num n => toString n
  | .str s => "\"" ++ jsonEscape s ++ "\""
  | .arr xs => "[" ++ jsonStringifyElems xs ++ "]"
  | .obj fs => "\x7b" ++ jsonStringifyFields fs ++ "\x7d"

def jsonStringifyElems : List JsonValue → String
  | [] => ""
  | [x] => jsonStringify x
  | x :: rest => jsonStringify x ++ "," ++ jsonStringifyElems rest

def jsonStringifyFields : List (String × JsonValue) → String
  | [] => ""
  | [(k, v)] => "\"" ++ jsonEscape k ++ "\":" ++ jsonStringify v
  | (k, v) :: rest =>
      "\"" ++ jsonEscape k ++ "\":" ++ jsonStringify v ++ "," ++ jsonStringifyFields rest

end

/-- Source lines 33-36.  The `callback` closure resolves/rejects the
promise returned by `send`; its invocations are modelled as `Effect`s
keyed by the request id, so only the replayable `payload` is stored. -/
structure InflightRequest where
  payload : String
deriving Repr

/-- Source lines 38-41.  `processFunc` is a caller-supplied closure;
its invocations are modelled as `Effect.dispatch`, so only `tag` is
stored. -/
structure Subscription where
  tag : String
deriving Repr

/-- The error object surfaced to a pending call's callback: the
`Error` message, plus the `code` and `response` properties installed
with `defineReadOnly` (absent on the generic `new Error("unknown
error")` path, hence `Option`).  A `code` property holding JavaScript
`null` is `some JsonValue.null`. -/
structure SurfacedError where
  message : String
  code : Option JsonValue
  response : Option String

/-- A thrown JavaScript exception. -/
inductive JsError where
  | typeError
deriving Repr

/-- Externally observable actions of the message handler. -/
inductive Effect where
  /-- `request.callback(null, result.result)` — the call's promise
  resolves with the given value. -/
  | resolve (id : String) (value : JsonValue)
  /-- `request.callback(error, undefined)` — the call's promise is
  rejected with the given error. -/
  | reject (id : String) (err : SurfacedError)
  /-- `sub.processFunc(result.params.result)` — the subscription keyed
  by `subId` receives a pushed payload (`none` = `undefined`). -/
  | dispatch (subId : String) (payload : Option JsonValue)
  /-- `console.warn(msg)`. -/
  | warn (msg : String)
  /-- `_stopEvent` ran on a still-pending `_subIds` promise: the
  unsubscribe continuation is deferred to that promise's resolution. -/
  | deferUnsub (pid : Nat)

/-- The mutable state of a `WebSocketProvider`, together with the
module-level counter `NextId` (line 31) and a transcript of the
interactions with the transport.

`_subIds` maps a tag to a *promise* of a subscription id; promises are
given identities `pid` drawn from `nextPid` and live in the `promises`
pool (`none` while in flight, `some subId` once resolved).

`sent` records, in order, every payload passed to
`this._websocket.send`; `calls` records, in order, every JSON-RPC call
issued through `send` (its id, method and params), whether or not it
has been transmitted yet. -/
structure WsState where
  nextId : Nat
  requests : List (String × InflightRequest)
  subIds : List (String × Nat)
  promises : List (Nat × Option String)
  nextPid : Nat
  subs : List (String × Subscription)
  wsReady : Bool
  sent : List String
  calls : List (Nat × String × List JsonValue)

/-- The payload built in `send` (lines 150-155):
`JSON.stringify({ method: method, params: params, id: rid, jsonrpc: "2.0" })`. -/
def requestPayload (method : String) (params : List JsonValue) (rid : Nat) : String :=
  jsonStringify (.obj [("method", .str method), ("params", .arr params),
    ("id", .num rid), ("jsonrpc", .str "2.0")])

/-- `send(method, params)`, lines 141-161: allocate `rid = NextId++`,
register the request under key `String(rid)`, and transmit the payload
immediately iff `_wsReady`.  Returns the assigned id. -/
def send (st : WsState) (method : String) (params : List JsonValue) : WsState × Nat :=
  let rid := st.nextId
  let payload := requestPayload method params rid
  ({ st with
      nextId := rid + 1,
      requests := aset st.requests (toString rid) ⟨payload⟩,
      calls := st.calls ++ [(rid, method, params)],
      sent := if st.wsReady then st.sent ++ [payload] else st.sent },
   rid)

/-- Issue a sequence of calls through `send`. -/
def runSends (st : WsState) : List (String × List JsonValue) → WsState
  | [] => st
  | (m, ps) :: rest => runSends (send st m ps).1 rest

/-- The ids assigned to a sequence of calls issued through `send`. -/
def runSendsIds (st : WsState) : List (String × List JsonValue) → List Nat
  | [] => []
  | (m, ps) :: rest => (send st m ps).2 :: runSendsIds (send st m ps).1 rest

/-- The `onopen` handler (lines 70-75): set `_wsReady` and replay every
buffered request payload.  `Object.keys` lists integer-like keys in
ascending numeric order; the keys of `_requests` are the decimal
renderings of ids drawn from a monotonically increasing counter, so
that order coincides with the association list's insertion order. -/
def onOpen (st : WsState) : WsState :=
  { st with
      wsReady := true,
      sent := st.sent ++ st.requests.map (fun kv => kv.2.payload) }

/-- The fields set up by the constructor (lines 59-69): empty maps,
`_wsReady = false`, nothing yet transmitted.  `NextId` is a module
counter shared across instances, so its starting value is a parameter. -/
def initState (n0 : Nat) : WsState :=
  { nextId := n0, requests := [], subIds := [], promises := [], nextPid := 0,
    subs := [], wsReady := false, sent := [], calls := [] }

/-- `const id = String(result.id)` (line 81). -/
def respId (result : JsonValue) : String :=
  jsToString ((jsGetV result "id").getD JsonValue.null)

/-- The error built on lines 90-92: `new Error(result.error.message ||
"unknown error")` with `code = result.error.code || null` and
`response = data`. -/
def backendError (result : JsonValue) (data : String) : SurfacedError :=
  let e := (jsGetV result "error").getD JsonValue.null
  { message := if truthy (jsGetV e "message")
      then jsToString ((jsGetV e "message").getD JsonValue.null)
      else "unknown error"
    code := some (if truthy (jsGetV e "code")
      then (jsGetV e "code").getD JsonValue.null
      else JsonValue.null)
    response := some data }

/-- The `result.id != null` branch of `onmessage` (lines 80-97).  Note
the source reads `request.callback` without checking that the lookup
found a request: when the id matches no pending call, `request` is
`undefined` and the property read throws a `TypeError` (after the
`delete` has already happened). -/
def handleResponse (st : WsState) (result : JsonValue) (data : String) :
    WsState × Except JsError (List Effect) :=
  let id := respId result
  let st1 : WsState := { st with requests := aerase st.requests id }
  match alookup st.requests id with
  | none => (st1, .error .typeError)
  | some _request =>
    match jsGetV result "result" with
    | some v => (st1, .ok [.resolve id v])
    | none =>
      if truthy (jsGetV result "error") then
        (st1, .ok [.reject id (backendError result data)])
      else
        (st1, .ok [.reject id ⟨"unknown error", none, none⟩])

/-- The `result.method === "eth_subscription"` branch (lines 99-106):
look up `this._subs[result.params.subscription]` and, if a subscription
is registered, invoke its `processFunc` with `result.params.result`.
Reading `.subscription` off an absent or null `params` throws. -/
def handleSubscription (st : WsState) (result : JsonValue) :
    WsState × Except JsError (List Effect) :=
  match jsGetV result "params" with
  | none => (st, .error .typeError)
  | some JsonValue.null => (st, .error .typeError)
  | some params =>
    let subKey := jsToStringU (jsGetV params "subscription")
    match alookup st.subs subKey with
    | some _sub => (st, .ok [.dispatch subKey (jsGetV params "result")])
    | none => (st, .ok [])

/-- Whether `result.method === "eth_subscription"` (strict equality,
line 99). -/
def isSubscriptionMethod : Option JsonValue → Bool
  | some (.str s) => s == "eth_subscription"
  | _ => false

/-- The `onmessage` handler (lines 77-110), applied to the parsed
message `result` (with the raw text `data` kept for the error
`response` property).  `JSON.parse` may also yield `null`, on which the
very first field access throws. -/
def onMessage (st : WsState) (result : JsonValue) (data : String) :
    WsState × Except JsError (List Effect) :=
  if isNullV result then (st, .error .typeError)
  else if looseNonNull (jsGetV result "id") then
    handleResponse st result data
  else if isSubscriptionMethod (jsGetV result "method") then
    handleSubscription st result
  else
    (st, .ok [.warn "this should not happen"])

/-- `get pollingInterval()` (lines 113-115). -/
def pollingIntervalGet : Int := 0

/-- The error thrown by `logger.throwError` (package
`@ethersproject/logger`): message, `Logger.errors` code, and the
`operation` detail. -/
structure EthersError where
  message : String
  code : String
  operation : String

/-- `resetEventsBlock` (lines 117-121).  Modelled from the spec:
`logger.throwError` lives in `@ethersproject/logger`, outside this
file; per the spec it "must fail immediately and synchronously", so it
is embedded as a synchronously returned `Except.error` carrying the
`UNSUPPORTED_OPERATION` code. -/
def resetEventsBlock (_blockNumber : Int) : Except EthersError Unit :=
  .error ⟨"cannot reset events block on WebSocketProvider",
    "UNSUPPORTED_OPERATION", "resetEventBlock"⟩

/-- `set pollingInterval(value)` (lines 123-127); throws
unconditionally (same modelling of `logger.throwError` as
`resetEventsBlock`). -/
def setPollingInterval (_value : Int) : Except EthersError Unit :=
  .error ⟨"cannot set polling interval on WebSocketProvider",
    "UNSUPPORTED_OPERATION", "setPollingInterval"⟩

/-- `set polling(value)` (lines 133-139): `if (!value) { return; }`
then an unconditional `logger.throwError`. -/
def setPolling (value : Bool) : Except EthersError Unit :=
  if !value then .ok ()
  else .error ⟨"cannot set polling on WebSocketProvider",
    "UNSUPPORTED_OPERATION", "setPolling"⟩

/-- The synchronous part of `_subscribe(tag, param, processFunc)`
(lines 167-174): if `_subIds[tag]` is unset, create the promise chain
`Promise.all(param).then((param) => this.send("eth_subscribe", param))`
— which issues exactly one `eth_subscribe` call through `send` — and
cache it under `tag`; otherwise reuse the cached promise.  Returns the
promise's identity and whether a new backend call was issued. -/
def subscribeStart (st : WsState) (tag : String) (param : List JsonValue) :
    WsState × Nat × Bool :=
  match alookup st.subIds tag with
  | some pid => (st, pid, false)
  | none =>
    let pid := st.nextPid
    let st1 : WsState := { st with
      nextPid := pid + 1,
      promises := (pid, none) :: st.promises,
      subIds := aset st.subIds tag pid }
    let st2 := (send st1 "eth_subscribe" param).1
    (st2, pid, true)

/-- Resolution of a `_subIds` promise: the backend's response to the
underlying `eth_subscribe` call delivers the subscription id. -/
def resolvePromise (st : WsState) (pid : Nat) (subId : String) : WsState :=
  { st with promises := aset st.promises pid (some subId) }

/-- `await subIdPromise` — the value a caller awaiting promise `pid`
observes (`none` while still pending). -/
def awaitPromise (st : WsState) (pid : Nat) : Option String :=
  match alookup st.promises pid with
  | some (some s) => some s
  | _ => none

/-- The continuation of `_subscribe` after the await (line 176):
`this._subs[subId] = { tag, processFunc }`.  Runs once the awaited
promise has resolved; returns the subscription id the caller observed. -/
def subscribeFinish (st : WsState) (pid : Nat) (tag : String) :
    WsState × Option String :=
  match awaitPromise st pid with
  | some s => ({ st with subs := aset st.subs s ⟨tag⟩ }, some s)
  | none => (st, none)

/-- `_stopEvent(event)` (lines 233-256).  Modelled from the spec: the
remaining-interest checks (`this._events.filter(...)` for "tx" events,
`this.listenerCount(event.event)` otherwise) consult the base
provider's listener registry, which lives in `base-provider.ts`,
outside this file; following the spec's `maybeTeardown(tag,
stillInterested)` contract they are passed in as the boolean
`interestRemains`, and the resolved tag (`"tx"` or `event.tag`) is
passed directly.  If interest remains this is a no-op.  Otherwise the
cached promise is removed from `_subIds` and its `.then` continuation
— delete the `_subs` binding if present and send one `eth_unsubscribe`
— runs with the resolved subscription id (deferred if the promise is
still pending). -/
def stopEvent (st : WsState) (interestRemains : Bool) (tag : String) :
    WsState × List Effect :=
  if interestRemains then (st, [])
  else
    match alookup st.subIds tag with
    | none => (st, [])
    | some pid =>
      let st1 : WsState := { st with subIds := aerase st.subIds tag }
      match alookup st1.promises pid with
      | some (some s) =>
        match alookup st1.subs s with
        | none => (st1, [])
        | some _ =>
          let st2 : WsState := { st1 with subs := aerase st1.subs s }
          ((send st2 "eth_unsubscribe" [JsonValue.str s]).1, [])
      | _ => (st1, [.deferUnsub pid])

/-- The calls in the transcript that used the given JSON-RPC method. -/
def callsWith (st : WsState) (method : String) : List (Nat × String × List JsonValue) :=
  st.calls.filter (fun c => c.2.1 == method)

/-- Most-significant-digit-first decimal digit characters of `n`. -/
def decDigits (n : Nat) : List Char :=
  if _h : n < 10 then [Nat.digitChar n]
  else decDigits (n / 10) ++ [Nat.digitChar (n % 10)]
  termination_by n
  decreasing_by exact Nat.div_lt_self (by omega) (by omega)

/-- Numeric value of a most-significant-first decimal digit string. -/
def decVal (l : List Char) : Nat :=
  l.foldl (fun a c => a * 10 + (c.toNat - 48)) 0

/-- The `_requests` entries created by a sequence of calls whose ids
start at `n0`, in issuance order. -/
def pendingEntries (n0 : Nat) :
    List (String × List JsonValue) → List (String × InflightRequest)
  | [] => []
  | (m, ps) :: rest =>
      (toString n0, ⟨requestPayload m ps n0⟩) :: pendingEntries (n0 + 1) rest

/-- The serialized payloads of a sequence of calls whose ids start at
`n0`, in issuance order. -/
def pendingPayloads (n0 : Nat) : List (String × List JsonValue) → List String
  | [] => []
  | (m, ps) :: rest => requestPayload m ps n0 :: pendingPayloads (n0 + 1) rest

/-- All keys of `_requests` are decimal renderings of ids below the
counter — true in every reachable state, since ids are allocated from
the increasing counter. -/
def freshReqs (st : WsState) : Prop :=
  ∀ rid : Nat, st.nextId ≤ rid → alookup st.requests (toString rid) = none

/-- The state used to exercise C1: one pending call with id 7. -/
def c1State : WsState := { initState 1 with requests := [("7", ⟨"p"⟩)] }

/-- The state used to exercise C5: tag "block" bound to a promise
resolved to subscription id "0xs", with a live binding for "0xs". -/
def c5State : WsState :=
  { initState 1 with
    subIds := [("block", 0)],
    promises := [(0, some "0xs")],
    subs := [("0xs", ⟨"block"⟩)] }

/-! ### Association-list lemmas -/

theorem alookup_aset_self {κ α : Type} [DecidableEq κ] (l : List (κ × α)) (k : κ) (v : α) :
    alookup (aset l k v) k = some v := by
  induction l with
  | nil => simp [aset, alookup]
  | cons p rest ih =>
    obtain ⟨k1, w⟩ := p
    by_cases h : k1 = k <;> simp [aset, alookup, h, ih]

theorem alookup_aset_ne {κ α : Type} [DecidableEq κ] (l : List (κ × α)) (k k2 : κ) (v : α)
    (h : k ≠ k2) : alookup (aset l k v) k2 = alookup l k2 := by
  induction l with
  | nil => simp [aset, alookup, h]
  | cons p rest ih =>
    obtain ⟨k1, w⟩ := p
    simp only [aset]
    by_cases h1 : k1 = k
    · rw [if_pos h1]
      have h12 : ¬ k1 = k2 := by rw [h1]; exact h
      simp only [alookup]
      rw [if_neg h12, if_neg h12]
    · rw [if_neg h1]
      simp only [alookup]
      by_cases h2 : k1 = k2
      · rw [if_pos h2, if_pos h2]
      · rw [if_neg h2, if_neg h2]
        exact ih

theorem alookup_aerase_self {κ α : Type} [DecidableEq κ] (l : List (κ × α)) (k : κ) :
    alookup (aerase l k) k = none := by
  induction l with
  | nil => simp [aerase, alookup]
  | cons p rest ih =>
    obtain ⟨k1, w⟩ := p
    by_cases h : k1 = k <;> simp [aerase, alookup, h, ih]

theorem alookup_aerase_ne {κ α : Type} [DecidableEq κ] (l : List (κ × α)) (k k2 : κ)
    (h : k ≠ k2) : alookup (aerase l k) k2 = alookup l k2 := by
  induction l with
  | nil => simp [aerase]
  | cons p rest ih =>
    obtain ⟨k1, w⟩ := p
    simp only [aerase]
    by_cases h1 : k1 = k
    · rw [if_pos h1]
      have h12 : ¬ k1 = k2 := by rw [h1]; exact h
      rw [ih]
      simp only [alookup]
      rw [if_neg h12]
    · rw [if_neg h1]
      simp only [alookup]
      by_cases h2 : k1 = k2
      · rw [if_pos h2, if_pos h2]
      · rw [if_neg h2, if_neg h2]
        exact ih

theorem aset_fresh {κ α : Type} [DecidableEq κ] (l : List (κ × α)) (k : κ) (v : α)
    (h : alookup l k = none) : aset l k v = l ++ [(k, v)] := by
  induction l with
  | nil => simp [aset]
  | cons p rest ih =>
    obtain ⟨k1, w⟩ := p
    by_cases h1 : k1 = k
    · simp [alookup, h1] at h
    · simp [alookup, h1] at h
      simp [aset, h1, ih h]

theorem alookup_append_none {κ α : Type} [DecidableEq κ] (l1 l2 : List (κ × α)) (k : κ)
    (h : alookup l1 k = none) : alookup (l1 ++ l2) k = alookup l2 k := by
  induction l1 with
  | nil => simp
  | cons p rest ih =>
    obtain ⟨k1, w⟩ := p
    by_cases h1 : k1 = k
    · simp [alookup, h1] at h
    · simp [alookup, h1] at h ⊢
      exact ih h

/-! ### Injectivity of the decimal rendering of `Nat`

The source keys `_requests` by `String(rid)`; distinctness of those
keys for distinct ids rests on injectivity of the decimal rendering,
proved here against core's `Nat.toDigitsCore`. -/

theorem toDigitsCore_eq_decDigits (n : Nat) :
    ∀ (fuel : Nat) (ds : List Char), n < fuel →
      Nat.toDigitsCore 10 fuel n ds = decDigits n ++ ds := by
  induction n using Nat.strong_induction_on with
  | _ n ih =>
    intro fuel ds hf
    match fuel, hf with
    | fuel + 1, hf =>
      by_cases h10 : n < 10
      · have hz : n / 10 = 0 := Nat.div_eq_of_lt h10
        have hm : n % 10 = n := Nat.mod_eq_of_lt h10
        simp [Nat.toDigitsCore, hz, hm, decDigits, h10]
      · have hz : n / 10 ≠ 0 := by
          intro h
          have hn : n < 10 := by omega
          exact h10 hn
        have hlt : n / 10 < n := Nat.div_lt_self (by omega) (by omega)
        have hfuel : n / 10 < fuel := by omega
        have hrec := ih (n / 10) hlt fuel (Nat.digitChar (n % 10) :: ds) hfuel
        rw [Nat.toDigitsCore]
        simp only [hz, if_false, if_neg hz]
        rw [hrec]
        conv_rhs => rw [decDigits]
        simp [h10]

theorem decDigits_ne_nil (n : Nat) : decDigits n ≠ [] := by
  rw [decDigits]
  by_cases h : n < 10 <;> simp [h]

theorem digitChar_val (d : Nat) (h : d < 10) : (Nat.digitChar d).toNat - 48 = d := by
  interval_cases d <;> rfl

theorem decVal_append_singleton (l : List Char) (c : Char) :
    decVal (l ++ [c]) = decVal l * 10 + (c.toNat - 48) := by
  simp [decVal, List.foldl_append]

theorem decVal_decDigits (n : Nat) : decVal (decDigits n) = n := by
  induction n using Nat.strong_induction_on with
  | _ n ih =>
    by_cases h : n < 10
    · rw [decDigits]
      simp only [h, dite_true, dif_pos]
      simp [decVal, digitChar_val n h]
    · rw [decDigits]
      simp only [h, dite_false, dif_neg, not_false_iff]
      rw [decVal_append_singleton]
      rw [ih (n / 10) (Nat.div_lt_self (by omega) (by omega))]
      have hd := digitChar_val (n % 10) (Nat.mod_lt n (by omega))
      omega

theorem asString_injective {l1 l2 : List Char} (h : l1.asString = l2.asString) :
    l1 = l2 := by
  have h2 := congrArg String.data h
  simpa [List.asString] using h2

theorem natToString_injective {m n : Nat} (h : toString m = toString n) : m = n := by
  have hm : toString m = (decDigits m).asString := by
    have h1 : toString m = Nat.repr m := rfl
    rw [h1, Nat.repr, Nat.toDigits,
      toDigitsCore_eq_decDigits m (m + 1) [] (Nat.lt_succ_self m), List.append_nil]
  have hn : toString n = (decDigits n).asString := by
    have h1 : toString n = Nat.repr n := rfl
    rw [h1, Nat.repr, Nat.toDigits,
      toDigitsCore_eq_decDigits n (n + 1) [] (Nat.lt_succ_self n), List.append_nil]
  rw [hm, hn] at h
  have hdd := asString_injective h
  have h1 := decVal_decDigits m
  rw [hdd, decVal_decDigits] at h1
  omega

theorem natToString_ne {m n : Nat} (h : m ≠ n) : toString m ≠ toString n :=
  fun hs => h (natToString_injective hs)

/-! ### Behaviour of `send` sequences and the readiness gate -/

theorem pendingEntries_payloads (calls : List (String × List JsonValue)) :
    ∀ n0, (pendingEntries n0 calls).map (fun kv => kv.2.payload)
      = pendingPayloads n0 calls := by
  induction calls with
  | nil => intro n0; rfl
  | cons c rest ih =>
    intro n0
    obtain ⟨m, ps⟩ := c
    simp [pendingEntries, pendingPayloads, ih]

theorem alookup_pendingEntries_ge (calls : List (String × List JsonValue)) :
    ∀ n0 rid, n0 + calls.length ≤ rid →
      alookup (pendingEntries n0 calls) (toString rid) = none := by
  induction calls with
  | nil => intro n0 rid h; rfl
  | cons c rest ih =>
    intro n0 rid h
    obtain ⟨m, ps⟩ := c
    simp only [List.length_cons] at h
    simp only [pendingEntries, alookup]
    rw [if_neg (natToString_ne (by omega : n0 ≠ rid)),
      ih (n0 + 1) rid (by omega)]

theorem runSends_notReady (calls : List (String × List JsonValue)) :
    ∀ st : WsState, st.wsReady = false → freshReqs st →
      (runSends st calls).wsReady = false ∧
      (runSends st calls).sent = st.sent ∧
      (runSends st calls).nextId = st.nextId + calls.length ∧
      (runSends st calls).requests = st.requests ++ pendingEntries st.nextId calls := by
  induction calls with
  | nil =>
    intro st h1 _
    exact ⟨h1, rfl, rfl, by simp [runSends, pendingEntries]⟩
  | cons c rest ih =>
    intro st h1 h2
    obtain ⟨m, ps⟩ := c
    have hfresh : alookup st.requests (toString st.nextId) = none :=
      h2 _ (Nat.le_refl _)
    have hset := aset_fresh st.requests (toString st.nextId)
      ⟨requestPayload m ps st.nextId⟩ hfresh
    have hw : (send st m ps).1.wsReady = false := h1
    have hsent : (send st m ps).1.sent = st.sent := by simp [send, h1]
    have hnext : (send st m ps).1.nextId = st.nextId + 1 := rfl
    have hreqs : (send st m ps).1.requests
        = st.requests ++ [(toString st.nextId, ⟨requestPayload m ps st.nextId⟩)] := by
      simp only [send]
      exact hset
    have hfresh' : freshReqs (send st m ps).1 := by
      intro rid hr
      rw [hnext] at hr
      rw [hreqs, alookup_append_none _ _ _ (h2 rid (by omega))]
      simp only [alookup]
      rw [if_neg (natToString_ne (by omega : st.nextId ≠ rid))]
    obtain ⟨ihw, ihsent, ihnext, ihreqs⟩ := ih (send st m ps).1 hw hfresh'
    have hstep : runSends st ((m, ps) :: rest) = runSends (send st m ps).1 rest := rfl
    refine ⟨hstep ▸ ihw, ?_, ?_, ?_⟩
    · rw [hstep, ihsent, hsent]
    · rw [hstep, ihnext, hnext]
      simp only [List.length_cons]
      omega
    · rw [hstep, ihreqs, hreqs, hnext]
      simp [pendingEntries, List.append_assoc]

theorem runSends_ready (calls : List (String × List JsonValue)) :
    ∀ st : WsState, st.wsReady = true →
      (runSends st calls).wsReady = true ∧
      (runSends st calls).sent = st.sent ++ pendingPayloads st.nextId calls := by
  induction calls with
  | nil =>
    intro st h1
    exact ⟨h1, by simp [runSends, pendingPayloads]⟩
  | cons c rest ih =>
    intro st h1
    obtain ⟨m, ps⟩ := c
    have hw : (send st m ps).1.wsReady = true := h1
    have hsent : (send st m ps).1.sent = st.sent ++ [requestPayload m ps st.nextId] := by
      simp [send, h1]
    have hnext : (send st m ps).1.nextId = st.nextId + 1 := rfl
    obtain ⟨ihw, ihsent⟩ := ih (send st m ps).1 hw
    have hstep : runSends st ((m, ps) :: rest) = runSends (send st m ps).1 rest := rfl
    refine ⟨hstep ▸ ihw, ?_⟩
    rw [hstep, ihsent, hsent, hnext]
    simp [pendingPayloads, List.append_assoc]

theorem runSendsIds_eq_range' (calls : List (String × List JsonValue)) :
    ∀ st : WsState, runSendsIds st calls = List.range' st.nextId calls.length := by
  induction calls with
  | nil => intro st; rfl
  | cons c rest ih =>
    intro st
    obtain ⟨m, ps⟩ := c
    have hstep : runSendsIds st ((m, ps) :: rest)
        = (send st m ps).2 :: runSendsIds (send st m ps).1 rest := rfl
    rw [hstep, ih]
    simp [send, List.range'_succ]

/-! ### Branch lemmas for the message handler -/

theorem isNullV_false_of_looseNonNull {result : JsonValue} {key : String}
    (h : looseNonNull (jsGetV result key) = true) : isNullV result = false := by
  cases result <;> simp_all [jsGetV, looseNonNull, isNullV]

theorem onMessage_eq_handleResponse (st : WsState) (result : JsonValue) (data : String)
    (hid : looseNonNull (jsGetV result "id") = true) :
    onMessage st result data = handleResponse st result data := by
  have h0 := isNullV_false_of_looseNonNull hid
  simp [onMessage, h0, hid]

theorem handleResponse_requests (st : WsState) (result : JsonValue) (data : String) :
    (handleResponse st result data).1.requests = aerase st.requests (respId result) := by
  unfold handleResponse
  cases halook : alookup st.requests (respId result) with
  | none => simp [halook]
  | some r =>
    cases hres : jsGetV result "result" with
    | some v => simp [halook, hres]
    | none =>
      by_cases herr : truthy (jsGetV result "error") <;> simp [halook, hres, herr]

theorem handleResponse_resolve (st : WsState) (result : JsonValue) (data : String)
    (req : InflightRequest) (v : JsonValue)
    (hreq : alookup st.requests (respId result) = some req)
    (hres : jsGetV result "result" = some v) :
    (handleResponse st result data).2 = Except.ok [Effect.resolve (respId result) v] := by
  unfold handleResponse
  simp [hreq, hres]

theorem handleResponse_backendError (st : WsState) (result : JsonValue) (data : String)
    (req : InflightRequest)
    (hreq : alookup st.requests (respId result) = some req)
    (hres : jsGetV result "result" = none)
    (herr : truthy (jsGetV result "error") = true) :
    (handleResponse st result data).2
      = Except.ok [Effect.reject (respId result) (backendError result data)] := by
  unfold handleResponse
  simp [hreq, hres, herr]

theorem handleResponse_unknownError (st : WsState) (result : JsonValue) (data : String)
    (req : InflightRequest)
    (hreq : alookup st.requests (respId result) = some req)
    (hres : jsGetV result "result" = none)
    (herr : truthy (jsGetV result "error") = false) :
    (handleResponse st result data).2
      = Except.ok [Effect.reject (respId result) ⟨"unknown error", none, none⟩] := by
  unfold handleResponse
  simp [hreq, hres, herr]

theorem backendError_spec (result : JsonValue) (data : String) (eo : JsonValue)
    (herr : jsGetV result "error" = some eo) :
    backendError result data =
      ⟨(if truthy (jsGetV eo "message")
          then jsToString ((jsGetV eo "message").getD JsonValue.null)
          else "unknown error"),
       some (if truthy (jsGetV eo "code")
          then (jsGetV eo "code").getD JsonValue.null else JsonValue.null),
       some data⟩ := by
  simp [backendError, herr]

/-! ### Claim theorems -/

/-- C1 (amended): for an incoming response whose id matches a pending
call — if the message has a `result` field the callback resolves with
that value; if it instead has a truthy `error` object the callback is
rejected with an error carrying the backend message and code, the
message defaulting to "unknown error" and the code to null whenever
the respective field is absent *or falsy* (e.g. empty message, code
0); if it has neither, the callback is rejected with the generic
"unknown error" (no code); in every case the pending call is removed
from the id-to-pending map. -/
theorem claim_C1_response_routing (st : WsState) (result : JsonValue) (data : String)
    (req : InflightRequest)
    (hid : looseNonNull (jsGetV result "id") = true)
    (hreq : alookup st.requests (respId result) = some req) :
    alookup (onMessage st result data).1.requests (respId result) = none ∧
    (∀ v, jsGetV result "result" = some v →
      (onMessage st result data).2 = Except.ok [Effect.resolve (respId result) v]) ∧
    (∀ eo, jsGetV result "result" = none → jsGetV result "error" = some eo →
      truthy (some eo) = true →
      (onMessage st result data).2 = Except.ok [Effect.reject (respId result)
        ⟨(if truthy (jsGetV eo "message")
            then jsToString ((jsGetV eo "message").getD JsonValue.null)
            else "unknown error"),
         some (if truthy (jsGetV eo "code")
            then (jsGetV eo "code").getD JsonValue.null else JsonValue.null),
         some data⟩]) ∧
    (jsGetV result "result" = none → truthy (jsGetV result "error") = false →
      (onMessage st result data).2
        = Except.ok [Effect.reject (respId result) ⟨"unknown error", none, none⟩]) := by
  rw [onMessage_eq_handleResponse st result data hid]
  refine ⟨?_, ?_, ?_, ?_⟩
  · rw [handleResponse_requests]
    exact alookup_aerase_self st.requests (respId result)
  · intro v hres
    exact handleResponse_resolve st result data req v hreq hres
  · intro eo hres herr htr
    have ht : truthy (jsGetV result "error") = true := by rw [herr]; exact htr
    rw [handleResponse_backendError st result data req hreq hres ht,
      backendError_spec result data eo herr]
  · intro hres herr
    exact handleResponse_unknownError st result data req hreq hres herr

/-- Witness for C1 at the spec's own example: the response
`{id:7, error:{code:-32000, message:"bad"}}` rejects call 7 with
message "bad" and code -32000, and removes the pending call. -/
theorem claim_C1_witness :
    (onMessage c1State
        (.obj [("id", .num 7), ("error",
          .obj [("code", .num (-32000)), ("message", .str "bad")])]) "raw").2
      = Except.ok [Effect.reject "7"
          ⟨"bad", some (JsonValue.num (-32000)), some "raw"⟩] ∧
    alookup (onMessage c1State
        (.obj [("id", .num 7), ("error",
          .obj [("code", .num (-32000)), ("message", .str "bad")])]) "raw").1.requests "7"
      = none := by
  have h := claim_C1_response_routing c1State
    (.obj [("id", .num 7), ("error",
      .obj [("code", .num (-32000)), ("message", .str "bad")])]) "raw" ⟨"p"⟩ rfl rfl
  refine ⟨?_, ?_⟩
  · have h2 := h.2.2.1 (.obj [("code", .num (-32000)), ("message", .str "bad")]) rfl rfl rfl
    simpa using h2
  · simpa using h.1

/-- Counterexample to C1 as stated: at the response
`{id:7, error:{message:"", code:0}}` (error object present, message and
code both present but falsy) the surfaced error does not carry the
backend-supplied message `""` and code `0`; it carries message
"unknown error" and code null. -/
theorem claim_C1_counterexample :
    (onMessage c1State
        (.obj [("id", .num 7), ("error",
          .obj [("message", .str ""), ("code", .num 0)])]) "raw").2
      = Except.ok [Effect.reject "7"
          ⟨"unknown error", some JsonValue.null, some "raw"⟩] ∧
    "unknown error" ≠ "" ∧
    JsonValue.null ≠ JsonValue.num 0 :=
  ⟨rfl, by decide, fun h => JsonValue.noConfusion h⟩

/-- C2: the claim says a response whose id matches no pending call is
silently dropped without an exception; evaluating the handler at
`{id:7, result:"0x1"}` with no pending call 7 shows it instead throws
a `TypeError` (the unchecked `request.callback` read on line 86). -/
theorem claim_C2_unmatched_id_raises :
    alookup (initState 1).requests "7" = none ∧
    (onMessage (initState 1) (.obj [("id", .num 7), ("result", .str "0x1")]) "m").2
      = Except.error JsError.typeError :=
  ⟨rfl, rfl⟩

/-- C7: `resetEventsBlock` and the `pollingInterval` setter fail
immediately and synchronously with an `UNSUPPORTED_OPERATION` error,
for every argument value. -/
theorem claim_C7_unsupported_operations (b v : Int) :
    resetEventsBlock b
      = Except.error ⟨"cannot reset events block on WebSocketProvider",
          "UNSUPPORTED_OPERATION", "resetEventBlock"⟩ ∧
    setPollingInterval v
      = Except.error ⟨"cannot set polling interval on WebSocketProvider",
          "UNSUPPORTED_OPERATION", "setPollingInterval"⟩ :=
  ⟨rfl, rfl⟩

/-- C8: the claim says any message that is neither a correlated
response nor a recognized push is logged and dropped without raising;
evaluating the handler at `{id:42}` (an id matching no pending call,
not a push) shows it instead throws a `TypeError`. -/
theorem claim_C8_uncorrelated_message_raises :
    alookup (initState 1).requests "42" = none ∧
    (onMessage (initState 1) (.obj [("id", .num 42)]) "m").2
      = Except.error JsError.typeError :=
  ⟨rfl, rfl⟩

/-- C9: the `polling` setter is asymmetric — assigning `false` is a
silent no-op, assigning `true` throws `UNSUPPORTED_OPERATION`
synchronously. -/
theorem claim_C9_polling_setter_asymmetry :
    setPolling false = Except.ok () ∧
    setPolling true
      = Except.error ⟨"cannot set polling on WebSocketProvider",
          "UNSUPPORTED_OPERATION", "setPolling"⟩ :=
  ⟨rfl, rfl⟩

/-- C10: when a matched response's error object carries a falsy `code`
(such as the number 0), the surfaced error carries code null rather
than the backend value (line 91: `result.error.code || null`), and its
`response` property carries the raw response text. -/
theorem claim_C10_falsy_code_nulled (st : WsState) (id data msgText : String)
    (req : InflightRequest) (cv : JsonValue)
    (hreq : alookup st.requests id = some req)
    (hfalsy : truthy (some cv) = false)
    (hmsg : msgText ≠ "") :
    (onMessage st (.obj [("id", .str id), ("error",
        .obj [("message", .str msgText), ("code", cv)])]) data).2
      = Except.ok [Effect.reject id ⟨msgText, some JsonValue.null, some data⟩] := by
  have hidv : jsGetV (.obj [("id", .str id), ("error",
      .obj [("message", .str msgText), ("code", cv)])]) "id" = some (.str id) := by
    simp [jsGetV, alookup]
  have hid : looseNonNull (jsGetV (.obj [("id", .str id), ("error",
      .obj [("message", .str msgText), ("code", cv)])]) "id") = true := by
    rw [hidv]; rfl
  have hrid : respId (.obj [("id", .str id), ("error",
      .obj [("message", .str msgText), ("code", cv)])]) = id := by
    simp [respId, hidv, jsToString]
  have hres : jsGetV (.obj [("id", .str id), ("error",
      .obj [("message", .str msgText), ("code", cv)])]) "result" = none := by
    simp [jsGetV, alookup]
  have herr : jsGetV (.obj [("id", .str id), ("error",
      .obj [("message", .str msgText), ("code", cv)])]) "error"
      = some (.obj [("message", .str msgText), ("code", cv)]) := by
    simp [jsGetV, alookup]
  have ht : truthy (jsGetV (.obj [("id", .str id), ("error",
      .obj [("message", .str msgText), ("code", cv)])]) "error") = true := by
    rw [herr]; rfl
  rw [onMessage_eq_handleResponse _ _ _ hid]
  rw [handleResponse_backendError _ _ data req (hrid ▸ hreq) hres ht,
    backendError_spec _ data _ herr, hrid]
  have hmv : jsGetV (.obj [("message", JsonValue.str msgText), ("code", cv)]) "message"
      = some (.str msgText) := by simp [jsGetV, alookup]
  have hcv : jsGetV (.obj [("message", JsonValue.str msgText), ("code", cv)]) "code"
      = some cv := by simp [jsGetV, alookup]
  rw [hmv, hcv]
  have hm : truthy (some (JsonValue.str msgText)) = true := by
    simp [truthy, hmsg]
  rw [hfalsy, hm]
  simp [jsToString]

/-- Witness for C10: the response
`{id:"9", error:{message:"m", code:0}}` with call "9" pending surfaces
code null and the raw text. -/
theorem claim_C10_witness :
    (onMessage { initState 1 with requests := [("9", ⟨"q"⟩)] }
        (.obj [("id", .str "9"), ("error",
          .obj [("message", .str "m"), ("code", .num 0)])]) "rawtext").2
      = Except.ok [Effect.reject "9" ⟨"m", some JsonValue.null, some "rawtext"⟩] :=
  claim_C10_falsy_code_nulled { initState 1 with requests := [("9", ⟨"q"⟩)] }
    "9" "rawtext" "m" ⟨"q"⟩ (.num 0) rfl rfl (by decide)

/-- C3: calls issued while the transport is not ready are buffered
and nothing is transmitted; on the open signal the transport receives
exactly the buffered serialized payloads, each once, in issuance
order; every call issued after the open signal is transmitted
immediately at issuance, appended after the flushed payloads. -/
theorem claim_C3_readiness_gate (n0 : Nat) (pre post : List (String × List JsonValue)) :
    (runSends (initState n0) pre).sent = [] ∧
    (onOpen (runSends (initState n0) pre)).sent = pendingPayloads n0 pre ∧
    (runSends (onOpen (runSends (initState n0) pre)) post).sent
      = pendingPayloads n0 pre ++ pendingPayloads (n0 + pre.length) post := by
  have hfresh : freshReqs (initState n0) := fun _ _ => rfl
  obtain ⟨hw, hsent, hnext, hreqs⟩ := runSends_notReady pre (initState n0) rfl hfresh
  have h1 : (runSends (initState n0) pre).sent = [] := hsent
  have h2 : (onOpen (runSends (initState n0) pre)).sent = pendingPayloads n0 pre := by
    show (runSends (initState n0) pre).sent
        ++ (runSends (initState n0) pre).requests.map (fun kv => kv.2.payload)
      = pendingPayloads n0 pre
    rw [h1, hreqs]
    simp only [initState, List.nil_append]
    exact pendingEntries_payloads pre n0
  refine ⟨h1, h2, ?_⟩
  have how : (onOpen (runSends (initState n0) pre)).wsReady = true := rfl
  obtain ⟨_, hs3⟩ := runSends_ready post (onOpen (runSends (initState n0) pre)) how
  rw [hs3, h2]
  have hn : (onOpen (runSends (initState n0) pre)).nextId = n0 + pre.length := hnext
  rw [hn]

/-- C6: the identifiers assigned to any sequence of calls issued
through `send` are the consecutive values of the `NextId` counter
starting at its current value, hence strictly monotonically increasing
and pairwise distinct; since the counter only grows, no identifier is
ever reused. -/
theorem claim_C6_ids_unique (st : WsState) (calls : List (String × List JsonValue)) :
    runSendsIds st calls = List.range' st.nextId calls.length ∧
    List.Chain' (· < ·) (runSendsIds st calls) ∧
    List.Pairwise (· ≠ ·) (runSendsIds st calls) := by
  have h := runSendsIds_eq_range' calls st
  refine ⟨h, ?_, ?_⟩
  · rw [h]
    exact (List.pairwise_lt_range' st.nextId calls.length).chain'
  · rw [h]
    exact (List.pairwise_lt_range' st.nextId calls.length).imp Nat.ne_of_lt

/-- `_subscribe` with a cached `_subIds[tag]` promise reuses it and
issues nothing. -/
theorem subscribeStart_cached (st : WsState) (tag : String) (p : List JsonValue)
    (pid : Nat) (h : alookup st.subIds tag = some pid) :
    subscribeStart st tag p = (st, pid, false) := by
  unfold subscribeStart
  rw [h]

/-- `_subscribe` with no cached `_subIds[tag]` promise creates one and
issues the `eth_subscribe` call. -/
theorem subscribeStart_fresh (st : WsState) (tag : String) (p : List JsonValue)
    (h : alookup st.subIds tag = none) :
    subscribeStart st tag p
      = ((send { st with
            nextPid := st.nextPid + 1,
            promises := (st.nextPid, none) :: st.promises,
            subIds := aset st.subIds tag st.nextPid } "eth_subscribe" p).1,
         st.nextPid, true) := by
  unfold subscribeStart
  rw [h]

/-- C4: two `_subscribe` calls with the same tag issued before the
backend responds: the first caches a promise and issues the single
`eth_subscribe` call appended to the transcript; the second finds the
cached promise, issues nothing, and returns the same promise; hence
when that promise resolves to a subscription id, both callers observe
the same id. -/
theorem claim_C4_subscribe_dedup (st : WsState) (tag : String)
    (p1 p2 : List JsonValue) (h : alookup st.subIds tag = none) :
    (subscribeStart st tag p1).2.2 = true ∧
    (subscribeStart (subscribeStart st tag p1).1 tag p2).2.2 = false ∧
    (subscribeStart (subscribeStart st tag p1).1 tag p2).2.1
      = (subscribeStart st tag p1).2.1 ∧
    (subscribeStart (subscribeStart st tag p1).1 tag p2).1.calls
      = st.calls ++ [(st.nextId, "eth_subscribe", p1)] ∧
    (∀ s : String, awaitPromise
        (resolvePromise (subscribeStart (subscribeStart st tag p1).1 tag p2).1
          (subscribeStart st tag p1).2.1 s)
        (subscribeStart st tag p1).2.1 = some s) := by
  rw [subscribeStart_fresh st tag p1 h]
  have hA : alookup ((send { st with
      nextPid := st.nextPid + 1,
      promises := (st.nextPid, none) :: st.promises,
      subIds := aset st.subIds tag st.nextPid } "eth_subscribe" p1).1).subIds tag
      = some st.nextPid := by
    simp only [send]
    exact alookup_aset_self _ _ _
  rw [subscribeStart_cached _ tag p2 _ hA]
  refine ⟨rfl, rfl, rfl, ?_, ?_⟩
  · simp [send]
  · intro s
    simp [awaitPromise, resolvePromise, send, alookup_aset_self]

/-- Witness for C4: from a fresh provider, two `_subscribe("block",
["newHeads"])` calls issue the subscribe once, and both observe the
resolution "0xdead". -/
theorem claim_C4_witness :
    (subscribeStart (initState 5) "block" [JsonValue.str "newHeads"]).2.2 = true ∧
    (subscribeStart (subscribeStart (initState 5) "block" [JsonValue.str "newHeads"]).1
        "block" [JsonValue.str "newHeads"]).2.2 = false ∧
    awaitPromise
      (resolvePromise (subscribeStart (subscribeStart (initState 5) "block"
          [JsonValue.str "newHeads"]).1 "block" [JsonValue.str "newHeads"]).1
        (subscribeStart (initState 5) "block" [JsonValue.str "newHeads"]).2.1 "0xdead")
      (subscribeStart (initState 5) "block" [JsonValue.str "newHeads"]).2.1
      = some "0xdead" := by
  have h := claim_C4_subscribe_dedup (initState 5) "block"
    [JsonValue.str "newHeads"] [JsonValue.str "newHeads"] rfl
  exact ⟨h.1, h.2.1, h.2.2.2.2 "0xdead"⟩

/-- `_stopEvent` with remaining interest is a no-op. -/
theorem stopEvent_interest (st : WsState) (tag : String) :
    stopEvent st true tag = (st, []) := by
  simp [stopEvent]

/-- `_stopEvent` with no `_subIds` entry for the tag is a no-op. -/
theorem stopEvent_noEntry (st : WsState) (tag : String)
    (h : alookup st.subIds tag = none) : stopEvent st false tag = (st, []) := by
  unfold stopEvent
  simp [h]

/-- A push naming a subscription id with no `_subs` binding is dropped
without dispatching. -/
theorem onMessage_unknown_push (st : WsState) (s : String) (payload : JsonValue)
    (data : String) (h : alookup st.subs s = none) :
    onMessage st (.obj [("method", .str "eth_subscription"),
        ("params", .obj [("subscription", .str s), ("result", payload)])]) data
      = (st, Except.ok []) := by
  simp [onMessage, isNullV, jsGetV, alookup, looseNonNull, isSubscriptionMethod,
    handleSubscription, jsToStringU, jsToString, h]

/-- C5: for a tag bound to a resolved subscription (promise resolved to
id `s`, binding for `s` present): while interest remains `_stopEvent`
is a no-op; once interest is withdrawn it removes the `_subIds` entry
and the binding and issues exactly one `eth_unsubscribe` naming `s`; a
second `_stopEvent` is then a no-op (at most one unsubscribe per
subscription id), and a subsequent push naming `s` is dropped without
invoking any dispatch. -/
theorem claim_C5_teardown (st : WsState) (tag s : String) (pid : Nat)
    (sub : Subscription) (payload : JsonValue) (data : String)
    (h1 : alookup st.subIds tag = some pid)
    (h2 : alookup st.promises pid = some (some s))
    (h3 : alookup st.subs s = some sub) :
    stopEvent st true tag = (st, []) ∧
    (stopEvent st false tag).1.calls
      = st.calls ++ [(st.nextId, "eth_unsubscribe", [JsonValue.str s])] ∧
    alookup (stopEvent st false tag).1.subs s = none ∧
    alookup (stopEvent st false tag).1.subIds tag = none ∧
    stopEvent (stopEvent st false tag).1 false tag = ((stopEvent st false tag).1, []) ∧
    onMessage (stopEvent st false tag).1
        (.obj [("method", .str "eth_subscription"),
          ("params", .obj [("subscription", .str s), ("result", payload)])]) data
      = ((stopEvent st false tag).1, Except.ok []) := by
  have hstop : stopEvent st false tag
      = ((send { st with
          subIds := aerase st.subIds tag,
          subs := aerase st.subs s } "eth_unsubscribe" [JsonValue.str s]).1, []) := by
    unfold stopEvent
    simp [h1, h2, h3]
  have hsubs : (stopEvent st false tag).1.subs = aerase st.subs s := by
    rw [hstop]
    simp [send]
  have hsubIds : (stopEvent st false tag).1.subIds = aerase st.subIds tag := by
    rw [hstop]
    simp [send]
  refine ⟨stopEvent_interest st tag, ?_, ?_, ?_, ?_, ?_⟩
  · rw [hstop]
    simp [send]
  · rw [hsubs]
    exact alookup_aerase_self _ _
  · rw [hsubIds]
    exact alookup_aerase_self _ _
  · exact stopEvent_noEntry _ tag (by rw [hsubIds]; exact alookup_aerase_self _ _)
  · exact onMessage_unknown_push _ s payload data
      (by rw [hsubs]; exact alookup_aerase_self _ _)

/-- Witness for C5: tearing down the "block" subscription from
`c5State` issues the single `eth_unsubscribe ["0xs"]`, removes the
binding, and a subsequent push for "0xs" is dropped. -/
theorem claim_C5_witness :
    (stopEvent c5State false "block").1.calls
      = [(1, "eth_unsubscribe", [JsonValue.str "0xs"])] ∧
    alookup (stopEvent c5State false "block").1.subs "0xs" = none ∧
    onMessage (stopEvent c5State false "block").1
        (.obj [("method", .str "eth_subscription"),
          ("params", .obj [("subscription", .str "0xs"), ("result", .num 3)])]) "d"
      = ((stopEvent c5State false "block").1, Except.ok []) := by
  have h := claim_C5_teardown c5State "block" "0xs" 0 ⟨"block"⟩ (.num 3) "d"
    (by rfl) (by rfl) (by rfl)
  exact ⟨by simpa [c5State, initState] using h.2.1, h.2.2.1, h.2.2.2.2.2⟩

/-- Witness for C3: two calls buffered before open, one issued after. -/
theorem claim_C3_witness :
    (runSends (initState 1) [("a", []), ("b", [])]).sent = [] ∧
    (onOpen (runSends (initState 1) [("a", []), ("b", [])])).sent
      = pendingPayloads 1 [("a", []), ("b", [])] ∧
    (runSends (onOpen (runSends (initState 1) [("a", []), ("b", [])])) [("c", [])]).sent
      = pendingPayloads 1 [("a", []), ("b", [])]
        ++ pendingPayloads (1 + 2) [("c", [])] :=
  claim_C3_readiness_gate 1 [("a", []), ("b", [])] [("c", [])]

/-- Witness for C6: three calls from a fresh counter get ids 1, 2, 3. -/
theorem claim_C6_witness :
    runSendsIds (initState 1) [("a", []), ("b", []), ("c", [])]
      = List.range' 1 3 ∧
    List.Chain' (· < ·) (runSendsIds (initState 1) [("a", []), ("b", []), ("c", [])]) ∧
    List.Pairwise (· ≠ ·) (runSendsIds (initState 1) [("a", []), ("b", []), ("c", [])]) :=
  claim_C6_ids_unique (initState 1) [("a", []), ("b", []), ("c", [])]

/-- Witness for C7 at arguments 3 and 4. -/
theorem claim_C7_witness :
    resetEventsBlock 3
      = Except.error ⟨"cannot reset events block on WebSocketProvider",
          "UNSUPPORTED_OPERATION", "resetEventBlock"⟩ ∧
    setPollingInterval 4
      = Except.error ⟨"cannot set polling interval on WebSocketProvider",
          "UNSUPPORTED_OPERATION", "setPollingInterval"⟩ :=
  claim_C7_unsupported_operations 3 4

end EthersWS
